import Mathlib

/-!
Shallow embedding of the hotel-bookings dashboard pipeline (`src/viso.py`):
month parsing at load time, the month/country/hotel filter chain, and the
five derived tabular views (geographic pivot, monthly series, cancellation
counts, market-segment reshape, price-by-room-type input).
-/

namespace Viso

/-- A parsed reservation record, after the month-name column has been
converted to an integer month (`df` after lines 10-11 of the script). -/
structure Record where
  hotel : String
  arrivalMonth : Nat
  country : Option String
  isCanceled : Bool
  distributionChannel : String
  marketSegment : String
  reservedRoomType : String
  adr : Rat
deriving DecidableEq

/-- A raw CSV row before month parsing: `arrival_date_month` is still the
month-name string. -/
structure RawRow where
  hotel : String
  arrivalDateMonth : String
  country : Option String
  isCanceled : Bool
  distributionChannel : String
  marketSegment : String
  reservedRoomType : String
  adr : Rat
deriving DecidableEq

/-- The user-selected filter values: the month-range slider, the country
selectbox, the hotel-type selectbox (both with the sentinel "All"), and the
cancellation-inclusion flag of the spec's FilterState (the script has no
widget reading it). -/
structure FilterState where
  monthLo : Nat
  monthHi : Nat
  selectedCountry : String
  hotelType : String
  includeCanceled : Bool
deriving DecidableEq

/-- ASCII lowercase of one character. -/
def lowerChar (c : Char) : Char :=
  if 'A' ≤ c && c ≤ 'Z' then Char.ofNat (c.toNat + 32) else c

/-- ASCII lowercase of a string, the lowering strptime applies before
matching month names. -/
def lowerString (s : String) : String :=
  String.mk (s.data.map lowerChar)

/-- `pd.to_datetime(s, format=%B).dt.month`: the full English month names,
matched case-insensitively, mapped to 1..12; anything else fails to parse. -/
def parseMonth (s : String) : Option Nat :=
  match lowerString s with
  | "january" => some 1
  | "february" => some 2
  | "march" => some 3
  | "april" => some 4
  | "may" => some 5
  | "june" => some 6
  | "july" => some 7
  | "august" => some 8
  | "september" => some 9
  | "october" => some 10
  | "november" => some 11
  | "december" => some 12
  | _ => none

/-- Build a parsed record from a raw row and its parsed month. -/
def toRecord (row : RawRow) (m : Nat) : Record :=
  { hotel := row.hotel
    arrivalMonth := m
    country := row.country
    isCanceled := row.isCanceled
    distributionChannel := row.distributionChannel
    marketSegment := row.marketSegment
    reservedRoomType := row.reservedRoomType
    adr := row.adr }

/-- Loading (lines 7-11): `pd.to_datetime(..., format=%B)` converts the
month column and raises on the first value that does not match a month
name, so the whole load fails; otherwise every row gets its 1..12 month. -/
def loadStore : List RawRow → Except String (List Record)
  | [] => Except.ok []
  | row :: rest =>
    match parseMonth row.arrivalDateMonth with
    | none => Except.error row.arrivalDateMonth
    | some m =>
      match loadStore rest with
      | Except.error e => Except.error e
      | Except.ok recs => Except.ok (toRecord row m :: recs)

/-- The filter chain of lines 32, 41-42 and 48-49: month range, then
country (unless "All"), then hotel type (unless "All"). No predicate
reads `includeCanceled`. -/
def dfFiltered (rs : List Record) (fs : FilterState) : List Record :=
  let d1 := rs.filter fun r =>
    decide (fs.monthLo ≤ r.arrivalMonth) && decide (r.arrivalMonth ≤ fs.monthHi)
  let d2 := if fs.selectedCountry ≠ "All"
    then d1.filter fun r => r.country == some fs.selectedCountry
    else d1
  if fs.hotelType ≠ "All"
    then d2.filter fun r => r.hotel == fs.hotelType
    else d2

/-- One row of the choropleth pivot (lines 20-24): a country with its
per-hotel booking counts and their sum. -/
structure GeoRow where
  country : String
  cityCount : Nat
  resortCount : Nat
  total : Nat
deriving DecidableEq

/-- The distinct non-null countries of the store, ascending (groupby drops
null keys and sorts them). -/
def geoCountries (rs : List Record) : List String :=
  List.insertionSort (fun a b => a ≤ b) (rs.filterMap Record.country).dedup

/-- Bookings of one country and one hotel name in the store. -/
def countHotel (rs : List Record) (c h : String) : Nat :=
  rs.countP fun r => r.country == some c && r.hotel == h

/-- The choropleth pivot `df_pivot` (lines 20-24): computed from the FULL
store `df`, one row per distinct non-null country, with the two hotel
columns and `total` as their sum. -/
def geoRows (rs : List Record) : List GeoRow :=
  (geoCountries rs).map fun c =>
    { country := c
      cityCount := countHotel rs c ("City Hotel")
      resortCount := countHotel rs c ("Resort Hotel")
      total := countHotel rs c ("City Hotel") + countHotel rs c ("Resort Hotel") }

/-- The arrival months of the records of one hotel name (lines 62-63 and
the column selection of lines 66-67). -/
def hotelMonths (view : List Record) (h : String) : List Nat :=
  (view.filter fun r => r.hotel == h).map Record.arrivalMonth

/-- `value_counts().sort_index()` for the arrival months of the records of
one hotel name (lines 62-67): (month, count) pairs of the months that
occur, ascending by month. -/
def monthlySeries (view : List Record) (h : String) : List (Nat × Nat) :=
  (List.insertionSort (fun a b => a ≤ b) (hotelMonths view h).dedup).map
    fun m => (m, (hotelMonths view h).count m)

/-- Line 115: the box-plot data keeps only the non-canceled records of the
filtered view, whatever the FilterState says. -/
def priceInput (rs : List Record) (fs : FilterState) : List Record :=
  (dfFiltered rs fs).filter fun r => r.isCanceled == false

/-- Helper for `uniqueFirst`: keep the values not seen before, threading
the set of values already emitted. -/
def uniqueFirstAux {α : Type} [DecidableEq α] (seen : List α) : List α → List α
  | [] => []
  | a :: l =>
    if a ∈ seen then uniqueFirstAux seen l
    else a :: uniqueFirstAux (a :: seen) l

/-- `unique()` of pandas: distinct values in order of first occurrence. -/
def uniqueFirst {α : Type} [DecidableEq α] (l : List α) : List α :=
  uniqueFirstAux [] l

/-- One row of the cancellation bar-chart data (lines 78-83). -/
structure CancelRow where
  hotel : String
  distributionChannel : String
  cancellationCount : Nat
deriving DecidableEq

/-- Lexicographic order on (hotel, channel) keys, the order groupby sorts
its group keys in. -/
def pairLE (a b : String × String) : Prop :=
  a.1 < b.1 ∨ (a.1 = b.1 ∧ a.2 ≤ b.2)

instance : DecidableRel pairLE := fun a b =>
  inferInstanceAs (Decidable (a.1 < b.1 ∨ (a.1 = b.1 ∧ a.2 ≤ b.2)))

instance : IsTrans (String × String) pairLE where
  trans a b c hab hbc := by
    rcases hab with h1 | ⟨h1, h1b⟩ <;> rcases hbc with h2 | ⟨h2, h2b⟩
    · exact Or.inl (lt_trans h1 h2)
    · exact Or.inl (h2 ▸ h1)
    · exact Or.inl (h1 ▸ h2)
    · exact Or.inr ⟨h1.trans h2, le_trans h1b h2b⟩

instance : IsTotal (String × String) pairLE where
  total a b := by
    rcases lt_trichotomy a.1 b.1 with h | h | h
    · exact Or.inl (Or.inl h)
    · rcases le_total a.2 b.2 with h2 | h2
      · exact Or.inl (Or.inr ⟨h, h2⟩)
      · exact Or.inr (Or.inr ⟨h.symm, h2⟩)
    · exact Or.inr (Or.inl h)

/-- Descending order on cancellation counts, the sort of line 83. -/
def canGE (a b : CancelRow) : Prop :=
  b.cancellationCount ≤ a.cancellationCount

instance : DecidableRel canGE := fun a b =>
  inferInstanceAs (Decidable (b.cancellationCount ≤ a.cancellationCount))

instance : IsTrans CancelRow canGE where
  trans _ _ _ hab hbc := le_trans hbc hab

instance : IsTotal CancelRow canGE where
  total a b := (Nat.le_total b.cancellationCount a.cancellationCount).elim Or.inl Or.inr

/-- Line 78: the canceled records of the filtered view. -/
def canceledOf (view : List Record) : List Record :=
  view.filter fun r => r.isCanceled == true

/-- The distinct (hotel, channel) keys of the canceled records, in the
sorted order groupby emits them. -/
def cancelKeys (view : List Record) : List (String × String) :=
  List.insertionSort pairLE
    (uniqueFirst ((canceledOf view).map fun r => (r.hotel, r.distributionChannel)))

/-- `cancellation_counts` (lines 78-83): group the canceled records by
(hotel, channel), count each group, then sort descending by count. -/
def cancellationCounts (view : List Record) : List CancelRow :=
  List.insertionSort canGE ((cancelKeys view).map fun k =>
    { hotel := k.1
      distributionChannel := k.2
      cancellationCount :=
        (canceledOf view).countP fun r =>
          r.hotel == k.1 && r.distributionChannel == k.2 })

/-- One row of the melted market-segment table (lines 91-103). The cell is
`none` where the wide table held NaN (a segment with no records for that
hotel column). -/
structure SegRow where
  marketSegment : String
  hotelType : String
  guestCount : Option Nat
deriving DecidableEq

/-- The hotel names of the filtered view in first-occurrence order
(`df_filtered.hotel.unique()`, lines 92 and 100). -/
def hotelsOf (view : List Record) : List String :=
  uniqueFirst (view.map Record.hotel)

/-- Records of the view with the given hotel and market segment. -/
def segCount (view : List Record) (h s : String) : Nat :=
  view.countP fun r => r.hotel == h && r.marketSegment == s

/-- The distinct market segments of one hotel's records, in
first-occurrence order (before value_counts sorts them). -/
def segmentsRaw (view : List Record) (h : String) : List String :=
  uniqueFirst ((view.filter fun r => r.hotel == h).map Record.marketSegment)

/-- The index of the wide table `temp`: assigning the first hotel's
`value_counts()` to an empty DataFrame fixes the index to that hotel's
segments, descending by count; later column assignments align to it and
never extend it. -/
def tempIndex (view : List Record) : List String :=
  match hotelsOf view with
  | [] => []
  | h :: _ =>
    List.insertionSort (fun a b => segCount view h b ≤ segCount view h a)
      (segmentsRaw view h)

/-- The wide-table cell for (hotel column, segment row): the hotel's count
of the segment where the segment occurs for that hotel, NaN otherwise. -/
def cell (view : List Record) (h s : String) : Option Nat :=
  if 0 < segCount view h s then some (segCount view h s) else none

/-- `melt` (lines 100-101): column-major traversal of the wide table, one
row per (segment, hotel column) with the cell value. -/
def meltRows (view : List Record) : List SegRow :=
  (hotelsOf view).flatMap fun h =>
    (tempIndex view).map fun s =>
      { marketSegment := s, hotelType := h, guestCount := cell view h s }

/-- The sort key of line 103: descending by guest count with NaN last. -/
def segKey (row : SegRow) : Nat :=
  match row.guestCount with
  | none => 0
  | some n => n + 1

/-- Descending order on guest counts with NaN last. -/
def segGE (a b : SegRow) : Prop :=
  segKey b ≤ segKey a

instance : DecidableRel segGE := fun a b =>
  inferInstanceAs (Decidable (segKey b ≤ segKey a))

instance : IsTrans SegRow segGE where
  trans _ _ _ hab hbc := le_trans hbc hab

instance : IsTotal SegRow segGE where
  total a b := (Nat.le_total (segKey b) (segKey a)).elim Or.inl Or.inr

/-- `temp_melt` (lines 91-103): the melted wide table, sorted descending
by guest count. -/
def marketSegmentAgg (view : List Record) : List SegRow :=
  List.insertionSort segGE (meltRows view)

/-- All derived views of one script run, as functions of the parsed store
and the widget-selected filter values. -/
structure Dashboard where
  geo : List GeoRow
  resortSeries : List (Nat × Nat)
  citySeries : List (Nat × Nat)
  cancellations : List CancelRow
  marketSegments : List SegRow
  priceRecords : List Record
deriving DecidableEq

/-- One full run of the script body on a given store and filter state. -/
def runDashboard (rs : List Record) (fs : FilterState) : Dashboard :=
  { geo := geoRows rs
    resortSeries := monthlySeries (dfFiltered rs fs) "Resort Hotel"
    citySeries := monthlySeries (dfFiltered rs fs) "City Hotel"
    cancellations := cancellationCounts (dfFiltered rs fs)
    marketSegments := marketSegmentAgg (dfFiltered rs fs)
    priceRecords := priceInput rs fs }

/-! ### C1: filter conjunction -/

/-- A canceled record passing the three widget filters. -/
def c1rec : Record :=
  { hotel := "City Hotel", arrivalMonth := 7, country := some ("PRT"),
    isCanceled := true, distributionChannel := "TA", marketSegment := "OTA",
    reservedRoomType := "A", adr := 80 }

/-- A filter state asking to exclude canceled records. -/
def c1fs : FilterState :=
  { monthLo := 1, monthHi := 12, selectedCountry := "All", hotelType := "All",
    includeCanceled := false }

/-- C1 counterexample: with `includeCanceled = false`, a canceled record
that passes the month, country and hotel predicates is still in the
filtered view, so membership is not equivalent to the conjunction of all
four predicates: the script applies no cancellation-inclusion filter. -/
theorem C1_counterexample :
    ¬ (c1rec ∈ dfFiltered [c1rec] c1fs ↔
        (c1rec ∈ ([c1rec] : List Record) ∧
          (c1fs.monthLo ≤ c1rec.arrivalMonth ∧ c1rec.arrivalMonth ≤ c1fs.monthHi) ∧
          (c1fs.selectedCountry = "All" ∨ c1rec.country = some c1fs.selectedCountry) ∧
          (c1fs.hotelType = "All" ∨ c1rec.hotel = c1fs.hotelType) ∧
          (c1rec.isCanceled = true → c1fs.includeCanceled = true))) := by
  decide

/-- C1 (amended): for every FilterState with `includeCanceled = true`, a
record is in the filtered view iff it is in the store and satisfies the
month-range, country and hotel-type predicates (and then also, trivially,
the cancellation-inclusion predicate); the filter engine itself reads only
those three predicates. -/
theorem C1_filter_conjunction (rs : List Record) (fs : FilterState) (r : Record)
    (h : fs.includeCanceled = true) :
    r ∈ dfFiltered rs fs ↔
      r ∈ rs ∧ (fs.monthLo ≤ r.arrivalMonth ∧ r.arrivalMonth ≤ fs.monthHi) ∧
        (fs.selectedCountry = "All" ∨ r.country = some fs.selectedCountry) ∧
        (fs.hotelType = "All" ∨ r.hotel = fs.hotelType) ∧
        (r.isCanceled = true → fs.includeCanceled = true) := by
  unfold dfFiltered
  by_cases hc : fs.selectedCountry = "All" <;> by_cases hh : fs.hotelType = "All" <;>
    simp [hc, hh, List.mem_filter, h, and_assoc] <;> tauto

/-- A non-canceled record for the C1 witness. -/
def c1wrec : Record :=
  { hotel := "Resort Hotel", arrivalMonth := 3, country := some ("PRT"),
    isCanceled := false, distributionChannel := "Direct", marketSegment := "Direct",
    reservedRoomType := "A", adr := 100 }

/-- The default filter state: full range, All, All, include canceled. -/
def c1wfs : FilterState :=
  { monthLo := 1, monthHi := 12, selectedCountry := "All", hotelType := "All",
    includeCanceled := true }

/-- Witness for C1 at a concrete store and filter state. -/
theorem C1_filter_conjunction_witness :
    c1wfs.includeCanceled = true ∧
    (c1wrec ∈ dfFiltered [c1wrec] c1wfs ↔
      c1wrec ∈ ([c1wrec] : List Record) ∧
        (c1wfs.monthLo ≤ c1wrec.arrivalMonth ∧ c1wrec.arrivalMonth ≤ c1wfs.monthHi) ∧
        (c1wfs.selectedCountry = "All" ∨ c1wrec.country = some c1wfs.selectedCountry) ∧
        (c1wfs.hotelType = "All" ∨ c1wrec.hotel = c1wfs.hotelType) ∧
        (c1wrec.isCanceled = true → c1wfs.includeCanceled = true)) :=
  ⟨rfl, C1_filter_conjunction [c1wrec] c1wfs c1wrec rfl⟩

/-! ### Helper lemmas -/

lemma mem_uniqueFirstAux {α : Type} [DecidableEq α] (seen l : List α) (x : α) :
    x ∈ uniqueFirstAux seen l ↔ x ∈ l ∧ x ∉ seen := by
  induction l generalizing seen with
  | nil => simp [uniqueFirstAux]
  | cons a l ih =>
    by_cases ha : a ∈ seen
    · simp only [uniqueFirstAux, if_pos ha, ih, List.mem_cons]
      constructor
      · rintro ⟨hx, hs⟩
        exact ⟨Or.inr hx, hs⟩
      · rintro ⟨hx | hx, hs⟩
        · exact absurd (hx ▸ ha) hs
        · exact ⟨hx, hs⟩
    · simp only [uniqueFirstAux, if_neg ha, List.mem_cons, ih]
      constructor
      · rintro (rfl | ⟨hx, hs⟩)
        · exact ⟨Or.inl rfl, ha⟩
        · exact ⟨Or.inr hx, fun hseen => hs (Or.inr hseen)⟩
      · rintro ⟨rfl | hx, hs⟩
        · exact Or.inl rfl
        · by_cases hxa : x = a
          · exact Or.inl hxa
          · exact Or.inr ⟨hx, fun h => h.elim hxa hs⟩

lemma mem_uniqueFirst {α : Type} [DecidableEq α] (l : List α) (x : α) :
    x ∈ uniqueFirst l ↔ x ∈ l := by
  simp [uniqueFirst, mem_uniqueFirstAux]

lemma nodup_uniqueFirstAux {α : Type} [DecidableEq α] (seen l : List α) :
    (uniqueFirstAux seen l).Nodup := by
  induction l generalizing seen with
  | nil => simp [uniqueFirstAux]
  | cons a l ih =>
    by_cases ha : a ∈ seen
    · simpa [uniqueFirstAux, ha] using ih seen
    · simp only [uniqueFirstAux, if_neg ha]
      rw [List.nodup_cons]
      refine ⟨fun hmem => ?_, ih (a :: seen)⟩
      exact ((mem_uniqueFirstAux _ _ _).mp hmem).2 (List.mem_cons_self a seen)

lemma nodup_uniqueFirst {α : Type} [DecidableEq α] (l : List α) :
    (uniqueFirst l).Nodup :=
  nodup_uniqueFirstAux [] l

lemma sum_map_add_nat {α : Type} (l : List α) (f g : α → Nat) :
    (l.map fun a => f a + g a).sum = (l.map f).sum + (l.map g).sum := by
  induction l with
  | nil => rfl
  | cons a l ih => simp [ih]; omega

lemma sum_map_zero_nat {α : Type} (l : List α) :
    (l.map fun _ => (0 : Nat)).sum = 0 := by
  induction l with
  | nil => rfl
  | cons a l ih =>
    simp only [List.map_cons, List.sum_cons, ih]

lemma sum_indicator_of_not_mem (cs : List String) (c0 : String) (h : c0 ∉ cs) :
    (cs.map fun c => if c0 = c then 1 else 0).sum = 0 := by
  induction cs with
  | nil => rfl
  | cons c cs ih =>
    have hne : c0 ≠ c := fun he => h (he ▸ List.mem_cons_self c cs)
    have htail : c0 ∉ cs := fun ht => h (List.mem_cons_of_mem _ ht)
    simp [hne, ih htail]

lemma sum_indicator_of_nodup (cs : List String) (c0 : String)
    (hnd : cs.Nodup) (hm : c0 ∈ cs) :
    (cs.map fun c => if c0 = c then 1 else 0).sum = 1 := by
  induction cs with
  | nil => exact absurd hm (List.not_mem_nil c0)
  | cons c cs ih =>
    rcases List.mem_cons.mp hm with rfl | hm2
    · have hnot : c0 ∉ cs := (List.nodup_cons.mp hnd).1
      simp [sum_indicator_of_not_mem cs c0 hnot]
    · have hne : c0 ≠ c := by
        rintro rfl
        exact (List.nodup_cons.mp hnd).1 hm2
      simp [hne, ih (List.nodup_cons.mp hnd).2 hm2]

/-- Splitting a per-country booking count by the two hotel names: every
record has one of the two names, so the two counts add to the country's
record count. -/
lemma countHotel_city_add_resort (rs : List Record) (c : String)
    (hw : ∀ r ∈ rs, r.hotel = "City Hotel" ∨ r.hotel = "Resort Hotel") :
    countHotel rs c ("City Hotel") + countHotel rs c ("Resort Hotel")
      = rs.countP fun r => r.country == some c := by
  induction rs with
  | nil => rfl
  | cons r rest ih =>
    have hr := hw r (List.mem_cons_self r rest)
    have hrest : ∀ x ∈ rest, x.hotel = "City Hotel" ∨ x.hotel = "Resort Hotel" :=
      fun x hx => hw x (List.mem_cons_of_mem _ hx)
    have ih2 := ih hrest
    unfold countHotel at ih2 ⊢
    rcases hr with h | h <;>
      by_cases hc : r.country == some c <;>
        simp [List.countP_cons, h, hc] <;> omega

/-- Summing the per-country counts over a duplicate-free list holding
every country of the store gives the count of non-null-country records. -/
lemma sum_country_counts (cs : List String) (rs : List Record)
    (hnd : cs.Nodup) (hcov : ∀ r ∈ rs, ∀ c, r.country = some c → c ∈ cs) :
    (cs.map fun c => rs.countP fun r => r.country == some c).sum
      = rs.countP fun r => r.country.isSome := by
  induction rs with
  | nil =>
    simp only [List.countP_nil]
    exact sum_map_zero_nat cs
  | cons r rest ih =>
    have hcov2 : ∀ x ∈ rest, ∀ c, x.country = some c → c ∈ cs :=
      fun x hx => hcov x (List.mem_cons_of_mem _ hx)
    simp only [List.countP_cons]
    rw [sum_map_add_nat, ih hcov2]
    congr 1
    cases hc : r.country with
    | none =>
      simp only [Option.isSome_none, Bool.false_eq_true, if_false, beq_iff_eq,
        reduceCtorEq]
      exact sum_map_zero_nat cs
    | some c0 =>
      have hm : c0 ∈ cs := hcov r (List.mem_cons_self r rest) c0 hc
      simp only [beq_iff_eq, Option.some.injEq, Option.isSome_some, if_true]
      exact sum_indicator_of_nodup cs c0 hnd hm

lemma geoCountries_nodup (rs : List Record) : (geoCountries rs).Nodup :=
  (List.perm_insertionSort _ _).symm.nodup (List.nodup_dedup _)

lemma mem_geoCountries (rs : List Record) (c : String) :
    c ∈ geoCountries rs ↔ ∃ r ∈ rs, r.country = some c := by
  unfold geoCountries
  rw [List.mem_insertionSort, List.mem_dedup, List.mem_filterMap]

/-! ### C2: the choropleth pivot's sum invariant -/

/-- A July booking with country "PRT". -/
def c2r1 : Record :=
  { hotel := "City Hotel", arrivalMonth := 7, country := some ("PRT"),
    isCanceled := false, distributionChannel := "TA", marketSegment := "OTA",
    reservedRoomType := "A", adr := 90 }

/-- An August booking with country "PRT", at the other hotel type, so the
store holds both hotel names and the pivot has both columns. -/
def c2r2 : Record :=
  { hotel := "Resort Hotel", arrivalMonth := 8, country := some ("PRT"),
    isCanceled := false, distributionChannel := "TA", marketSegment := "OTA",
    reservedRoomType := "A", adr := 95 }

/-- A month range keeping only the July booking. -/
def c2fs : FilterState :=
  { monthLo := 7, monthHi := 7, selectedCountry := "All", hotelType := "All",
    includeCanceled := true }

/-- C2 counterexample: the store holds one record per hotel type (so the
pivot has both hotel columns and line 24 runs without error); with a
month range keeping only one of the two records, the pivot totals still
sum to 2 (the pivot is built from the full store) while the filtered
view has a single non-null-country record, so the claimed equality with
the FilteredView count fails. -/
theorem C2_counterexample :
    ¬ (((geoRows [c2r1, c2r2]).map GeoRow.total).sum
        = (dfFiltered [c2r1, c2r2] c2fs).countP fun r => r.country.isSome) := by
  decide

/-- C2 (amended): on a store whose hotel field takes only the two hotel
names and in which both names occur — so the pivot really has both
columns and line 24 computes `total` rather than raising — every pivot
row satisfies `total = cityCount + resortCount`, and the totals sum to
the number of records of the FULL RecordStore with non-null country, not
of the FilteredView. -/
theorem C2_geo_sum (rs : List Record)
    (hw : ∀ r ∈ rs, r.hotel = "City Hotel" ∨ r.hotel = "Resort Hotel")
    (_hcity : ∃ r ∈ rs, r.hotel = "City Hotel")
    (_hresort : ∃ r ∈ rs, r.hotel = "Resort Hotel") :
    (∀ g ∈ geoRows rs, g.total = g.cityCount + g.resortCount) ∧
    ((geoRows rs).map GeoRow.total).sum = rs.countP fun r => r.country.isSome := by
  constructor
  · intro g hg
    rcases List.mem_map.mp hg with ⟨c, _, rfl⟩
    rfl
  · have h1 : (geoRows rs).map GeoRow.total
        = (geoCountries rs).map fun c =>
            countHotel rs c ("City Hotel") + countHotel rs c ("Resort Hotel") := by
      unfold geoRows
      rw [List.map_map]
      rfl
    have h2 : ((geoCountries rs).map fun c =>
          countHotel rs c ("City Hotel") + countHotel rs c ("Resort Hotel"))
        = (geoCountries rs).map fun c => rs.countP fun r => r.country == some c := by
      apply List.map_congr_left
      intro c _
      exact countHotel_city_add_resort rs c hw
    rw [h1, h2]
    exact sum_country_counts (geoCountries rs) rs (geoCountries_nodup rs)
      fun r hr c hc => (mem_geoCountries rs c).mpr ⟨r, hr, hc⟩

/-- Witness for C2 at a concrete store holding both hotel types. -/
theorem C2_geo_sum_witness :
    ((∀ r ∈ ([c2r1, c2r2] : List Record),
        r.hotel = "City Hotel" ∨ r.hotel = "Resort Hotel") ∧
      (∃ r ∈ ([c2r1, c2r2] : List Record), r.hotel = "City Hotel") ∧
      (∃ r ∈ ([c2r1, c2r2] : List Record), r.hotel = "Resort Hotel")) ∧
    ((∀ g ∈ geoRows [c2r1, c2r2], g.total = g.cityCount + g.resortCount) ∧
      ((geoRows [c2r1, c2r2]).map GeoRow.total).sum
        = ([c2r1, c2r2] : List Record).countP fun r => r.country.isSome) :=
  ⟨⟨by decide, by decide, by decide⟩,
    C2_geo_sum [c2r1, c2r2] (by decide) (by decide) (by decide)⟩

/-! ### C3: the box-plot input never holds canceled records -/

/-- C3: for every store, filter state (whatever its `includeCanceled`
flag says) and record, a record of the price-by-room-type input is not
canceled: line 115 removes canceled records unconditionally. -/
theorem C3_price_excludes_canceled (rs : List Record) (fs : FilterState) (r : Record)
    (h : r ∈ priceInput rs fs) : r.isCanceled = false := by
  have h2 := (List.mem_filter.mp h).2
  simpa using h2

/-- A non-canceled record for the C3 witness. -/
def c3rec : Record :=
  { hotel := "City Hotel", arrivalMonth := 5, country := some ("FRA"),
    isCanceled := false, distributionChannel := "TA", marketSegment := "OTA",
    reservedRoomType := "B", adr := 120 }

/-- A filter state whose cancellation flag is off, to exercise the
"regardless of include_canceled" part of C3. -/
def c3fs : FilterState :=
  { monthLo := 1, monthHi := 12, selectedCountry := "All", hotelType := "All",
    includeCanceled := false }

/-- Witness for C3 at a concrete store and filter state. -/
theorem C3_price_excludes_canceled_witness :
    c3rec ∈ priceInput [c3rec] c3fs ∧ c3rec.isCanceled = false :=
  ⟨by decide, C3_price_excludes_canceled [c3rec] c3fs c3rec (by decide)⟩

/-! ### C7: empty filtered view -/

/-- A July booking at the Resort Hotel. -/
def c7rec : Record :=
  { hotel := "Resort Hotel", arrivalMonth := 7, country := some ("PRT"),
    isCanceled := false, distributionChannel := "TA", marketSegment := "OTA",
    reservedRoomType := "A", adr := 50 }

/-- A July booking at the City Hotel, so the store holds both hotel names
and the pivot of line 24 has both columns. -/
def c7rec2 : Record :=
  { hotel := "City Hotel", arrivalMonth := 7, country := some ("PRT"),
    isCanceled := false, distributionChannel := "TA", marketSegment := "OTA",
    reservedRoomType := "A", adr := 60 }

/-- A month range that matches no record of that store. -/
def c7fs : FilterState :=
  { monthLo := 1, monthHi := 3, selectedCountry := "All", hotelType := "All",
    includeCanceled := true }

/-- C7 counterexample: on a store with one July booking per hotel type
(both pivot columns exist, so line 24 runs without error), a filter state
matching no records empties the filtered view, yet the geographic pivot —
computed from the full store, not the filtered view — still has a row, so
not every aggregator's output is empty. -/
theorem C7_counterexample :
    dfFiltered [c7rec, c7rec2] c7fs = [] ∧ geoRows [c7rec, c7rec2] ≠ [] := by
  decide

/-- C7 (amended): when the filter predicates match no records, every
aggregator that consumes the filtered view (the two monthly series, the
cancellation counts, the market-segment table and the box-plot input)
returns an empty result rather than an error; the geographic pivot is
computed from the full store and is not emptied by the filter state — on
a store holding non-null-country records of both hotel types it stays
nonempty even though the filtered view is empty. -/
theorem C7_empty_view (rs : List Record) (fs : FilterState)
    (he : dfFiltered rs fs = []) :
    monthlySeries (dfFiltered rs fs) ("Resort Hotel") = [] ∧
    monthlySeries (dfFiltered rs fs) ("City Hotel") = [] ∧
    cancellationCounts (dfFiltered rs fs) = [] ∧
    marketSegmentAgg (dfFiltered rs fs) = [] ∧
    priceInput rs fs = [] := by
  unfold priceInput
  rw [he]
  exact ⟨rfl, rfl, rfl, rfl, rfl⟩

/-- Witness for C7 at a concrete store holding both hotel types. -/
theorem C7_empty_view_witness :
    dfFiltered [c7rec, c7rec2] c7fs = [] ∧
    (monthlySeries (dfFiltered [c7rec, c7rec2] c7fs) ("Resort Hotel") = [] ∧
      monthlySeries (dfFiltered [c7rec, c7rec2] c7fs) ("City Hotel") = [] ∧
      cancellationCounts (dfFiltered [c7rec, c7rec2] c7fs) = [] ∧
      marketSegmentAgg (dfFiltered [c7rec, c7rec2] c7fs) = [] ∧
      priceInput [c7rec, c7rec2] c7fs = []) :=
  ⟨by decide, C7_empty_view [c7rec, c7rec2] c7fs (by decide)⟩

/-! ### C5: the monthly series -/

/-- The count of one month among one hotel's months is the count of the
view's records with that hotel and month. -/
lemma hotelMonths_count (view : List Record) (h : String) (m : Nat) :
    (hotelMonths view h).count m
      = view.countP fun r => r.arrivalMonth == m && r.hotel == h := by
  have e1 : (hotelMonths view h).count m
      = List.countP (fun x => x == m) (hotelMonths view h) := rfl
  rw [e1, hotelMonths, List.countP_map, List.countP_filter]
  rfl

/-- C5: for every filtered view and hotel name, the monthly series is
strictly ascending in its month component, and a (month, count) pair
appears in it iff the count is positive and equals the number of the
view's records with that arrival month and that hotel: the series
partitions by hotel, counts per month, sorts ascending by month, and
omits months with no records instead of zero-filling them. -/
theorem C5_monthly_series (view : List Record) (h : String) :
    (monthlySeries view h).Pairwise (fun a b => a.1 < b.1) ∧
    (∀ m c, (m, c) ∈ monthlySeries view h ↔
      (0 < c ∧ c = view.countP fun r => r.arrivalMonth == m && r.hotel == h)) := by
  unfold monthlySeries
  constructor
  · rw [List.pairwise_map]
    have hle := List.sorted_insertionSort (fun a b => a ≤ b) (hotelMonths view h).dedup
    have hnd : (List.insertionSort (fun a b => a ≤ b) (hotelMonths view h).dedup).Nodup :=
      (List.perm_insertionSort _ _).symm.nodup (List.nodup_dedup _)
    exact (hle.and hnd).imp fun hab => lt_of_le_of_ne hab.1 hab.2
  · intro m c
    rw [List.mem_map]
    constructor
    · rintro ⟨m', hm', he⟩
      have h1 : m' = m := congrArg Prod.fst he
      have h2 : (hotelMonths view h).count m' = c := congrArg Prod.snd he
      have hmem : m' ∈ hotelMonths view h := by
        rw [List.mem_insertionSort, List.mem_dedup] at hm'
        exact hm'
      subst h1
      exact ⟨h2 ▸ List.count_pos_iff.mpr hmem, h2 ▸ hotelMonths_count view h m'⟩
    · rintro ⟨hpos, hc⟩
      refine ⟨m, ?_, ?_⟩
      · rw [List.mem_insertionSort, List.mem_dedup, ← List.count_pos_iff,
          hotelMonths_count view h m, ← hc]
        exact hpos
      · rw [hotelMonths_count view h m, ← hc]

/-! ### C6: cancellation counts -/

lemma mem_cancelKeys (view : List Record) (k : String × String) :
    k ∈ cancelKeys view ↔ ∃ r ∈ canceledOf view, (r.hotel, r.distributionChannel) = k := by
  unfold cancelKeys
  rw [List.mem_insertionSort, mem_uniqueFirst, List.mem_map]

lemma cancelKeys_nodup (view : List Record) : (cancelKeys view).Nodup :=
  (List.perm_insertionSort _ _).symm.nodup (nodup_uniqueFirst _)

/-- C6: for every filtered view, the cancellation table has one row per
(hotel, channel) pair occurring among the canceled records — its count
the number of canceled records of that pair and positive, every canceled
record's pair having a row, the key pairs duplicate-free — the rows are
ordered descending by count, and the table is empty iff the view has no
canceled records. -/
theorem C6_cancellation_counts (view : List Record) :
    (∀ row ∈ cancellationCounts view,
        row.cancellationCount
          = (canceledOf view).countP (fun r =>
              r.hotel == row.hotel && r.distributionChannel == row.distributionChannel) ∧
        0 < row.cancellationCount) ∧
    (∀ r ∈ canceledOf view, ∃ row ∈ cancellationCounts view,
        row.hotel = r.hotel ∧ row.distributionChannel = r.distributionChannel) ∧
    ((cancellationCounts view).map fun row => (row.hotel, row.distributionChannel)).Nodup ∧
    (cancellationCounts view).Pairwise
      (fun a b => b.cancellationCount ≤ a.cancellationCount) ∧
    (cancellationCounts view = [] ↔ canceledOf view = []) := by
  have hmemout : ∀ row : CancelRow, row ∈ cancellationCounts view ↔
      ∃ k ∈ cancelKeys view,
        ({ hotel := k.1, distributionChannel := k.2,
            cancellationCount :=
              (canceledOf view).countP fun r =>
                r.hotel == k.1 && r.distributionChannel == k.2 } : CancelRow) = row := by
    intro row
    unfold cancellationCounts
    rw [List.mem_insertionSort, List.mem_map]
  have hA : ∀ row ∈ cancellationCounts view,
      row.cancellationCount
        = (canceledOf view).countP (fun r =>
            r.hotel == row.hotel && r.distributionChannel == row.distributionChannel) ∧
      0 < row.cancellationCount := by
    intro row hrow
    obtain ⟨k, hk, hrow2⟩ := (hmemout row).mp hrow
    obtain ⟨r, hr, hkey⟩ := (mem_cancelKeys view k).mp hk
    subst hrow2
    refine ⟨rfl, ?_⟩
    rw [List.countP_pos_iff]
    refine ⟨r, hr, ?_⟩
    have h1 : r.hotel = k.1 := congrArg Prod.fst hkey
    have h2 : r.distributionChannel = k.2 := congrArg Prod.snd hkey
    simp [h1, h2]
  have hB : ∀ r ∈ canceledOf view, ∃ row ∈ cancellationCounts view,
      row.hotel = r.hotel ∧ row.distributionChannel = r.distributionChannel := by
    intro r hr
    refine ⟨{ hotel := r.hotel
              distributionChannel := r.distributionChannel
              cancellationCount :=
                (canceledOf view).countP fun x =>
                  x.hotel == r.hotel && x.distributionChannel == r.distributionChannel },
      ?_, rfl, rfl⟩
    rw [hmemout]
    exact ⟨(r.hotel, r.distributionChannel),
      (mem_cancelKeys view _).mpr ⟨r, hr, rfl⟩, rfl⟩
  have hC : ((cancellationCounts view).map
      fun row => (row.hotel, row.distributionChannel)).Nodup := by
    have hperm : List.Perm (cancellationCounts view)
        ((cancelKeys view).map fun k =>
          ({ hotel := k.1, distributionChannel := k.2,
              cancellationCount :=
                (canceledOf view).countP fun r =>
                  r.hotel == k.1 && r.distributionChannel == k.2 } : CancelRow)) :=
      List.perm_insertionSort _ _
    have hmapmap : (((cancelKeys view).map fun k =>
        ({ hotel := k.1, distributionChannel := k.2,
            cancellationCount :=
              (canceledOf view).countP fun r =>
                r.hotel == k.1 && r.distributionChannel == k.2 } : CancelRow)).map
          fun row => (row.hotel, row.distributionChannel)) = cancelKeys view := by
      rw [List.map_map]
      have hcomp : ((fun row : CancelRow => (row.hotel, row.distributionChannel)) ∘
          fun k : String × String =>
            ({ hotel := k.1, distributionChannel := k.2,
                cancellationCount :=
                  (canceledOf view).countP fun r =>
                    r.hotel == k.1 && r.distributionChannel == k.2 } : CancelRow)) = id := by
        funext k
        rfl
      rw [hcomp, List.map_id]
    have hperm2 : List.Perm ((cancellationCounts view).map
        fun row => (row.hotel, row.distributionChannel)) (cancelKeys view) := by
      rw [← hmapmap]
      exact hperm.map _
    exact hperm2.symm.nodup (cancelKeys_nodup view)
  have hD : (cancellationCounts view).Pairwise
      (fun a b => b.cancellationCount ≤ a.cancellationCount) :=
    List.sorted_insertionSort canGE _
  have hE : cancellationCounts view = [] ↔ canceledOf view = [] := by
    constructor
    · intro hout
      cases hcc : canceledOf view with
      | nil => rfl
      | cons a l =>
        obtain ⟨row, hrow, _⟩ := hB a (hcc ▸ List.mem_cons_self a l)
        rw [hout] at hrow
        exact absurd hrow (List.not_mem_nil row)
    · intro hc
      unfold cancellationCounts cancelKeys
      rw [hc]
      rfl
  exact ⟨hA, hB, hC, hD, hE⟩

/-! ### C4: the market-segment reshape -/

/-- A booking of the first hotel type, market segment "Online TA". -/
def c4r1 : Record :=
  { hotel := "City Hotel", arrivalMonth := 7, country := some ("PRT"),
    isCanceled := false, distributionChannel := "TA", marketSegment := "Online TA",
    reservedRoomType := "A", adr := 75 }

/-- A booking of the second hotel type, market segment "Direct" — a
segment present only for the second hotel type. -/
def c4r2 : Record :=
  { hotel := "Resort Hotel", arrivalMonth := 7, country := some ("PRT"),
    isCanceled := false, distributionChannel := "Direct", marketSegment := "Direct",
    reservedRoomType := "A", adr := 85 }

/-- C4 counterexample: on a view whose two hotel types have disjoint
segments, the reshaped table keeps only the first hotel's segment: the
segment present only for the second hotel type is omitted entirely (no
row at all), and the missing (segment, hotel) cell surfaces as an
undefined NaN value, not as an explicit zero. -/
theorem C4_counterexample :
    marketSegmentAgg [c4r1, c4r2]
      = [{ marketSegment := "Online TA", hotelType := "City Hotel", guestCount := some 1 },
          { marketSegment := "Online TA", hotelType := "Resort Hotel", guestCount := none }] ∧
    c4r2.marketSegment = "Direct" ∧
    (({ marketSegment := "Direct", hotelType := "Resort Hotel",
        guestCount := some 1 } : SegRow) ∉ marketSegmentAgg [c4r1, c4r2]) ∧
    (({ marketSegment := "Online TA", hotelType := "Resort Hotel",
        guestCount := some 0 } : SegRow) ∉ marketSegmentAgg [c4r1, c4r2]) := by
  decide

/-- C4 (amended): only the segments of the wide table's index — the
segments of the FIRST hotel type of the view, those the first
`value_counts()` assignment fixed — get one output row per hotel type of
the view; a (segment, hotel) cell with no matching records holds an
undefined NaN value rather than an explicit zero, and segments present
only for a later hotel type are omitted from the output entirely. -/
theorem C4_market_segment (view : List Record) (s h : String)
    (hs : s ∈ tempIndex view) (hh : h ∈ hotelsOf view) :
    ({ marketSegment := s, hotelType := h, guestCount := cell view h s } : SegRow)
        ∈ marketSegmentAgg view ∧
    ∀ row ∈ marketSegmentAgg view,
      row.marketSegment ∈ tempIndex view ∧ row.hotelType ∈ hotelsOf view ∧
      row.guestCount = cell view row.hotelType row.marketSegment := by
  have hmem : ∀ row : SegRow, row ∈ marketSegmentAgg view ↔ row ∈ meltRows view := by
    intro row
    unfold marketSegmentAgg
    rw [List.mem_insertionSort]
  constructor
  · rw [hmem]
    unfold meltRows
    rw [List.mem_flatMap]
    refine ⟨h, hh, ?_⟩
    rw [List.mem_map]
    exact ⟨s, hs, rfl⟩
  · intro row hrow
    rw [hmem] at hrow
    unfold meltRows at hrow
    rw [List.mem_flatMap] at hrow
    obtain ⟨h2, hh2, hrow2⟩ := hrow
    rw [List.mem_map] at hrow2
    obtain ⟨s2, hs2, rfl⟩ := hrow2
    exact ⟨hs2, hh2, rfl⟩

/-- Witness for C4 on the concrete two-record view. -/
theorem C4_market_segment_witness :
    ("Online TA" ∈ tempIndex [c4r1, c4r2] ∧ "Resort Hotel" ∈ hotelsOf [c4r1, c4r2]) ∧
    (({ marketSegment := "Online TA", hotelType := "Resort Hotel",
        guestCount := cell [c4r1, c4r2] ("Resort Hotel") ("Online TA") } : SegRow)
          ∈ marketSegmentAgg [c4r1, c4r2] ∧
      ∀ row ∈ marketSegmentAgg [c4r1, c4r2],
        row.marketSegment ∈ tempIndex [c4r1, c4r2] ∧
        row.hotelType ∈ hotelsOf [c4r1, c4r2] ∧
        row.guestCount = cell [c4r1, c4r2] row.hotelType row.marketSegment) :=
  ⟨⟨by decide, by decide⟩,
    C4_market_segment [c4r1, c4r2] ("Online TA") ("Resort Hotel") (by decide) (by decide)⟩

/-! ### C8: month parsing at load -/

/-- A successfully parsed month is one of 1..12. -/
lemma parseMonth_bounds (s : String) (m : Nat) (h : parseMonth s = some m) :
    1 ≤ m ∧ m ≤ 12 := by
  unfold parseMonth at h
  split at h <;> simp_all <;> omega

/-- C8: the load fails (with the offending month string as the error)
iff some input row's month name is unrecognized; and a successful load
returns exactly one record per row, whose `arrivalMonth` is the 1..12
integer its month name parses to, all other fields carried over — no row
is silently given an arbitrary month. -/
theorem C8_load_month_parsing (rows : List RawRow) :
    ((∃ e, loadStore rows = Except.error e) ↔
      ∃ row ∈ rows, parseMonth row.arrivalDateMonth = none) ∧
    (∀ store, loadStore rows = Except.ok store →
      List.Forall₂ (fun (row : RawRow) (rec : Record) =>
        ∃ m, parseMonth row.arrivalDateMonth = some m ∧
          1 ≤ m ∧ m ≤ 12 ∧ rec = toRecord row m) rows store) := by
  induction rows with
  | nil =>
    constructor
    · constructor
      · rintro ⟨e, he⟩
        exact absurd he (by simp [loadStore])
      · rintro ⟨row, hrow, _⟩
        exact absurd hrow (List.not_mem_nil row)
    · intro store hstore
      have : store = [] := by
        simpa [loadStore] using hstore
      subst this
      exact List.Forall₂.nil
  | cons row rest ih =>
    cases hp : parseMonth row.arrivalDateMonth with
    | none =>
      constructor
      · constructor
        · intro _
          exact ⟨row, List.mem_cons_self row rest, hp⟩
        · intro _
          exact ⟨row.arrivalDateMonth, by simp [loadStore, hp]⟩
      · intro store hstore
        rw [show loadStore (row :: rest) = Except.error row.arrivalDateMonth from by
          simp [loadStore, hp]] at hstore
        exact absurd hstore (by simp)
    | some m =>
      cases hl : loadStore rest with
      | error e =>
        have hres : loadStore (row :: rest) = Except.error e := by
          simp [loadStore, hp, hl]
        constructor
        · constructor
          · intro _
            obtain ⟨row2, hrow2, hnone⟩ := ih.1.mp ⟨e, hl⟩
            exact ⟨row2, List.mem_cons_of_mem _ hrow2, hnone⟩
          · intro _
            exact ⟨e, hres⟩
        · intro store hstore
          rw [hres] at hstore
          exact absurd hstore (by simp)
      | ok recs =>
        have hres : loadStore (row :: rest) = Except.ok (toRecord row m :: recs) := by
          simp [loadStore, hp, hl]
        constructor
        · constructor
          · rintro ⟨e, he⟩
            rw [hres] at he
            exact absurd he (by simp)
          · rintro ⟨row2, hrow2, hnone⟩
            rcases List.mem_cons.mp hrow2 with rfl | hrow3
            · exact absurd hp (hnone ▸ fun h => Option.noConfusion h)
            · obtain ⟨e, he⟩ := ih.1.mpr ⟨row2, hrow3, hnone⟩
              rw [hl] at he
              exact absurd he (by simp)
        · intro store hstore
          rw [hres] at hstore
          have : toRecord row m :: recs = store := by
            simpa using hstore
          subst this
          refine List.Forall₂.cons ?_ (ih.2 recs hl)
          obtain ⟨hb1, hb2⟩ := parseMonth_bounds row.arrivalDateMonth m hp
          exact ⟨m, hp, hb1, hb2, rfl⟩

/-! ### C9: determinism -/

/-- C9: two runs of the script body on the same store and filter state
produce the same dashboard: every derived view is a pure function of the
parsed store and the widget values, with no other state. -/
theorem C9_deterministic (rs : List Record) (fs : FilterState) :
    runDashboard rs fs = runDashboard rs fs := rfl

/-! ### C10: the choropleth ignores the filters -/

/-- C10: the geographic view of a run is the same for any two filter
states over the same store: `df_pivot` is built from the full dataframe
before any filter is applied. -/
theorem C10_geo_filter_independent (rs : List Record) (fs1 fs2 : FilterState) :
    (runDashboard rs fs1).geo = (runDashboard rs fs2).geo := rfl

end Viso
